import Mathlib

/-!
Shallow embedding of the watch-party backend (`src/server.js`): the room
registry, the sync clock, the protocol dispatcher and the bounded chat log.
JS numbers are modelled as rationals, JS strings as Lean strings (operating
on their character lists), the mutable `rooms` Map as a function from codes
to optional room states, and `Date.now()` / `Math.random()` as explicit
parameters threaded through each operation.
-/

namespace WatchParty

set_option maxRecDepth 100000

/-- JS `String.prototype.trim` on a character list: drop whitespace from both ends. -/
def trimChars (l : List Char) : List Char :=
  ((l.dropWhile Char.isWhitespace).reverse.dropWhile Char.isWhitespace).reverse

/-- JS `s.trim()`. -/
def jsTrim (s : String) : String := String.mk (trimChars s.data)

/-- JS `s.toUpperCase()` (ASCII range, as used for room codes). -/
def jsToUpperCase (s : String) : String := String.mk (s.data.map Char.toUpper)

/-- JS `s.toLowerCase()` (ASCII range), used to build lowercase variants of codes. -/
def jsToLowerCase (s : String) : String := String.mk (s.data.map Char.toLower)

/-- JS `arr.slice(-n)`: the last `n` elements (the whole list when shorter). -/
def lastN (n : ℕ) (l : List α) : List α := l.drop (l.length - n)

/-- JS `String(value || "")`, with `none` modelling `undefined`/`null`. -/
def jsStringOrEmpty (v : Option String) : String := v.getD ""

/-- JS `Number(x) || 0`: a non-numeric input coerces to `NaN`, which `|| 0`
turns into `0`; `none` models that case. On an actual number `q` the result
is `q` (JS maps the falsy number `0` to the literal `0`, the same value). -/
def jsNumberOr0 (v : Option ℚ) : ℚ :=
  match v with
  | none => 0
  | some q => q

/-- One chat message; `sentAt` embeds the JS field `at` (a reserved word in
Lean), and `id` carries the JS id string built from time plus random suffix,
modelled as an opaque per-call nonce input. -/
structure ChatMessage where
  id : String
  username : String
  text : String
  sentAt : ℚ
deriving DecidableEq, Repr

/-- The per-room mutable state stored in the `rooms` Map. -/
structure RoomState where
  roomCode : String
  videoId : String
  isPlaying : Bool
  currentTime : ℚ
  lastUpdatedAt : ℚ
  chat : List ChatMessage
deriving DecidableEq, Repr

/-- The `rooms` Map, as a lookup function from code to optional room state. -/
abbrev Registry := String → Option RoomState

def emptyRegistry : Registry := fun _ => none

/-- JS `rooms.has(code)`. -/
def hasRoom (rooms : Registry) (code : String) : Bool := (rooms code).isSome

/-- Mutating a room object held in the Map (or `rooms.set`). -/
def setRoom (rooms : Registry) (code : String) (s : RoomState) : Registry :=
  fun c => if c = code then some s else rooms c

/-- The default room state installed by `getOrCreateRoom` on first reference. -/
def defaultRoomState (roomCode : String) (now : ℚ) : RoomState :=
  { roomCode := roomCode
    videoId := "dQw4w9WgXcQ"
    isPlaying := false
    currentTime := 0
    lastUpdatedAt := now
    chat := [] }

/-- JS `getOrCreateRoom`: return the existing room, or install and return a
fresh default one. Returns the room together with the (possibly extended)
registry. -/
def getOrCreateRoom (rooms : Registry) (roomCode : String) (now : ℚ) :
    RoomState × Registry :=
  match rooms roomCode with
  | some s => (s, rooms)
  | none =>
      let s := defaultRoomState roomCode now
      (s, setRoom rooms roomCode s)

/-- JS `normalizeRoomCode`: `String(value || "").trim().toUpperCase()`. -/
def normalizeRoomCode (value : Option String) : String :=
  jsToUpperCase (jsTrim (jsStringOrEmpty value))

def ROOM_CODE_LENGTH : ℕ := 6

def ROOM_CHARSET : String := "ABCDEFGHJKLMNPQRSTUVWXYZ23456789"

/-- Membership in the regex character class `[A-Z0-9]`. -/
def isUpperOrDigit (c : Char) : Bool :=
  (decide (65 ≤ c.toNat) && decide (c.toNat ≤ 90)) ||
    (decide (48 ≤ c.toNat) && decide (c.toNat ≤ 57))

/-- JS `isValidRoomCode`: the regex test `/^[A-Z0-9]{6}$/.test(code)`. -/
def isValidRoomCode (code : String) : Bool :=
  decide (code.data.length = ROOM_CODE_LENGTH) && code.data.all isUpperOrDigit

/-- JS `ROOM_CHARSET[index]`; an in-range index (as `Math.floor(Math.random()
* ROOM_CHARSET.length)` always is) selects the corresponding character. -/
def charsetChar (index : ℕ) : Char := ROOM_CHARSET.data.getD index 'A'

/-- JS `generateRoomCode`: six characters indexed by the random draws
`rand 0, ..., rand 5`, each draw modelling `Math.floor(Math.random() * 32)`. -/
def generateRoomCode (rand : ℕ → ℕ) : String :=
  String.mk ((List.range ROOM_CODE_LENGTH).map (fun i => charsetChar (rand i)))

/-- The loop body of JS `getUniqueRoomCode`: `fuel` is the number of attempts
still allowed, `attempts` the index of the current attempt (feeding the
per-attempt random draws `rand attempts`). -/
def getUniqueRoomCodeLoop (rooms : Registry) (rand : ℕ → ℕ → ℕ) :
    ℕ → ℕ → Except String String
  | _, 0 => Except.error "Could not generate unique room code"
  | attempts, fuel + 1 =>
      let code := generateRoomCode (rand attempts)
      if hasRoom rooms code then getUniqueRoomCodeLoop rooms rand (attempts + 1) fuel
      else Except.ok code

/-- JS `getUniqueRoomCode`: up to 1000 attempts, then the thrown error. -/
def getUniqueRoomCode (rooms : Registry) (rand : ℕ → ℕ → ℕ) : Except String String :=
  getUniqueRoomCodeLoop rooms rand 0 1000

/-- JS `getSyncedTime`: the drift-compensated play head at instant `now`
(milliseconds), the sync clock of the spec. -/
def getSyncedTime (state : RoomState) (now : ℚ) : ℚ :=
  if !state.isPlaying then state.currentTime
  else state.currentTime + (now - state.lastUpdatedAt) / 1000

/-- The canonical sync snapshot shape sent to clients. -/
structure SyncPayload where
  isPlaying : Bool
  currentTime : ℚ
  serverNow : ℚ
deriving DecidableEq, Repr

/-- JS `buildSyncPayload`. -/
def buildSyncPayload (state : RoomState) (now : ℚ) : SyncPayload :=
  { isPlaying := state.isPlaying
    currentTime := getSyncedTime state now
    serverNow := now }

/-- The per-connection session data (`socket.data`); `none` models a field
never assigned. -/
structure SocketData where
  roomCode : Option String
  username : Option String
deriving DecidableEq, Repr

def freshSocketData : SocketData := { roomCode := none, username := none }

/-- JS truthiness of a possibly-undefined string (`undefined` and `""` are
falsy). -/
def truthyString (v : Option String) : Bool :=
  match v with
  | none => false
  | some s => decide (s ≠ "")

/-- Who receives an outbound emission: `socket.emit`, `io.to(room).emit`, or
`socket.to(room).emit`. -/
inductive Scope where
  | senderOnly
  | wholeRoom (roomCode : String)
  | roomExceptSender (roomCode : String)
deriving DecidableEq, Repr

/-- The payload shapes carried by outbound events. -/
inductive Payload where
  | roomState (roomCode : String) (videoId : String) (sync : SyncPayload)
      (chat : List ChatMessage)
  | systemMessage (text : String) (sentAt : ℚ)
  | joinError (message : String)
  | videoChanged (videoId : String) (actor : Option String) (sentAt : ℚ)
  | sync (p : SyncPayload)
  | chatEcho (m : ChatMessage)
deriving DecidableEq, Repr

/-- One outbound emission: target scope, event name and payload. -/
structure Emission where
  scope : Scope
  event : String
  payload : Payload
deriving DecidableEq, Repr

/-- The `join-room` handler: validates the normalized code and trimmed name,
requires the room to already exist, then records the membership on the socket
and emits the room snapshot to the joiner plus a system notice to the room. -/
def handleJoinRoom (rooms : Registry) (sock : SocketData)
    (roomCode : Option String) (username : Option String) (now : ℚ) :
    SocketData × Registry × List Emission :=
  let normalizedCode := normalizeRoomCode roomCode
  let cleanName := jsTrim (jsStringOrEmpty username)
  if cleanName = "" || !isValidRoomCode normalizedCode then
    (sock, rooms,
     [{ scope := Scope.senderOnly, event := "join-error",
        payload := Payload.joinError "Invalid room code or username" }])
  else if !hasRoom rooms normalizedCode then
    (sock, rooms,
     [{ scope := Scope.senderOnly, event := "join-error",
        payload := Payload.joinError "Room does not exist" }])
  else
    let res := getOrCreateRoom rooms normalizedCode now
    ({ roomCode := some normalizedCode, username := some cleanName }, res.2,
     [{ scope := Scope.senderOnly, event := "room-state",
        payload := Payload.roomState normalizedCode res.1.videoId
          (buildSyncPayload res.1 now) (lastN 50 res.1.chat) },
      { scope := Scope.wholeRoom normalizedCode, event := "system-message",
        payload := Payload.systemMessage (cleanName ++ " joined") now }])

/-- The `set-video` handler. -/
def handleSetVideo (rooms : Registry) (sock : SocketData)
    (videoId : Option String) (now : ℚ) : Registry × List Emission :=
  match sock.roomCode, videoId with
  | some code, some vid =>
      if code = "" || vid = "" then (rooms, [])
      else
        let res := getOrCreateRoom rooms code now
        let state := { res.1 with
          videoId := vid, currentTime := 0,
          isPlaying := false, lastUpdatedAt := now }
        (setRoom res.2 code state,
         [{ scope := Scope.wholeRoom code, event := "video-changed",
            payload := Payload.videoChanged vid sock.username now }])
  | _, _ => (rooms, [])

/-- The `sync-play` handler. -/
def handleSyncPlay (rooms : Registry) (sock : SocketData)
    (currentTime : Option ℚ) (now : ℚ) : Registry × List Emission :=
  match sock.roomCode with
  | some code =>
      if code = "" then (rooms, [])
      else
        let res := getOrCreateRoom rooms code now
        let state := { res.1 with
          isPlaying := true,
          currentTime := jsNumberOr0 currentTime, lastUpdatedAt := now }
        (setRoom res.2 code state,
         [{ scope := Scope.roomExceptSender code, event := "sync-play",
            payload := Payload.sync (buildSyncPayload state now) }])
  | none => (rooms, [])

/-- The `sync-pause` handler. -/
def handleSyncPause (rooms : Registry) (sock : SocketData)
    (currentTime : Option ℚ) (now : ℚ) : Registry × List Emission :=
  match sock.roomCode with
  | some code =>
      if code = "" then (rooms, [])
      else
        let res := getOrCreateRoom rooms code now
        let state := { res.1 with
          isPlaying := false,
          currentTime := jsNumberOr0 currentTime, lastUpdatedAt := now }
        (setRoom res.2 code state,
         [{ scope := Scope.roomExceptSender code, event := "sync-pause",
            payload := Payload.sync (buildSyncPayload state now) }])
  | none => (rooms, [])

/-- The `sync-seek` handler: like pause/play but leaves `isPlaying` alone. -/
def handleSyncSeek (rooms : Registry) (sock : SocketData)
    (currentTime : Option ℚ) (now : ℚ) : Registry × List Emission :=
  match sock.roomCode with
  | some code =>
      if code = "" then (rooms, [])
      else
        let res := getOrCreateRoom rooms code now
        let state := { res.1 with
          currentTime := jsNumberOr0 currentTime,
          lastUpdatedAt := now }
        (setRoom res.2 code state,
         [{ scope := Scope.roomExceptSender code, event := "sync-seek",
            payload := Payload.sync (buildSyncPayload state now) }])
  | none => (rooms, [])

/-- The `chat-message` handler: appends a trimmed, 500-character-capped
message and evicts the oldest entries past 200 via `chat.slice(-200)`.
`idNonce` stands for the JS id string built from the current time and a
random suffix. -/
def handleChatMessage (rooms : Registry) (sock : SocketData)
    (text : Option String) (now : ℚ) (idNonce : String) : Registry × List Emission :=
  match sock.roomCode, sock.username with
  | some code, some username =>
      if code = "" || username = "" || jsTrim (jsStringOrEmpty text) = "" then
        (rooms, [])
      else
        let res := getOrCreateRoom rooms code now
        let message : ChatMessage :=
          { id := idNonce, username := username,
            text := String.mk ((jsTrim (jsStringOrEmpty text)).data.take 500),
            sentAt := now }
        let chat1 := res.1.chat ++ [message]
        let chat2 := if 200 < chat1.length then lastN 200 chat1 else chat1
        (setRoom res.2 code { res.1 with chat := chat2 },
         [{ scope := Scope.wholeRoom code, event := "chat-message",
            payload := Payload.chatEcho message }])
  | _, _ => (rooms, [])

/-- Result of the HTTP `GET /api/rooms/:roomCode` endpoint. -/
inductive SnapshotResult where
  | invalidFormat
  | notFound
  | ok (roomCode : String) (videoId : String) (isPlaying : Bool) (currentTime : ℚ)
deriving DecidableEq, Repr

/-- The HTTP room-snapshot lookup: normalize, validate, require existence,
then report the room through the sync clock. -/
def getRoomSnapshot (rooms : Registry) (rawCode : String) (now : ℚ) :
    SnapshotResult × Registry :=
  let roomCode := normalizeRoomCode (some rawCode)
  if !isValidRoomCode roomCode then (SnapshotResult.invalidFormat, rooms)
  else if !hasRoom rooms roomCode then (SnapshotResult.notFound, rooms)
  else
    let res := getOrCreateRoom rooms roomCode now
    (SnapshotResult.ok roomCode res.1.videoId res.1.isPlaying
      (getSyncedTime res.1 now), res.2)

/-- The union of the mutating client events handled after join. -/
inductive ClientEvent where
  | setVideo (videoId : Option String)
  | syncPlay (currentTime : Option ℚ)
  | syncPause (currentTime : Option ℚ)
  | syncSeek (currentTime : Option ℚ)
  | chatMessage (text : Option String)
deriving DecidableEq, Repr

/-- Dispatch one mutating client event to its handler. -/
def dispatchMutating (rooms : Registry) (sock : SocketData) (e : ClientEvent)
    (now : ℚ) (idNonce : String) : Registry × List Emission :=
  match e with
  | ClientEvent.setVideo v => handleSetVideo rooms sock v now
  | ClientEvent.syncPlay t => handleSyncPlay rooms sock t now
  | ClientEvent.syncPause t => handleSyncPause rooms sock t now
  | ClientEvent.syncSeek t => handleSyncSeek rooms sock t now
  | ClientEvent.chatMessage t => handleChatMessage rooms sock t now idNonce

/-- The guard each mutating handler checks before touching any state. -/
def eventPrecondition (sock : SocketData) (e : ClientEvent) : Bool :=
  match e with
  | ClientEvent.setVideo v => truthyString sock.roomCode && truthyString v
  | ClientEvent.syncPlay _ => truthyString sock.roomCode
  | ClientEvent.syncPause _ => truthyString sock.roomCode
  | ClientEvent.syncSeek _ => truthyString sock.roomCode
  | ClientEvent.chatMessage t =>
      truthyString sock.roomCode && truthyString sock.username &&
        decide (jsTrim (jsStringOrEmpty t) ≠ "")

/-- One inbound chat message: the raw text, the read of `Date.now()` during
the handler, and the id nonce drawn for it. -/
structure ChatInput where
  text : String
  now : ℚ
  idNonce : String
deriving DecidableEq, Repr

/-- Feed a sequence of `chat-message` events from one socket through the
handler, keeping only the evolving registry. -/
def runChatMessages (sock : SocketData) (inputs : List ChatInput)
    (rooms : Registry) : Registry :=
  inputs.foldl (fun r inp => (handleChatMessage r sock (some inp.text) inp.now inp.idNonce).1) rooms

/-- The message object the chat handler builds for one accepted input. -/
def builtChatMessage (username : String) (inp : ChatInput) : ChatMessage :=
  { id := inp.idNonce, username := username,
    text := String.mk ((jsTrim inp.text).data.take 500), sentAt := inp.now }

/-- The messages actually appended by a sequence of chat inputs: blank-after-
trim texts are dropped by the handler guard. -/
def builtChatMessages (username : String) (inputs : List ChatInput) : List ChatMessage :=
  inputs.filterMap (fun inp =>
    if jsTrim inp.text = "" then none else some (builtChatMessage username inp))

/-! Helper lemmas about `lastN`, the registry, and character classes. -/

lemma lastN_of_le {α : Type} {n : ℕ} {l : List α} (h : l.length ≤ n) : lastN n l = l := by
  simp [lastN, Nat.sub_eq_zero_of_le h]

lemma length_lastN {α : Type} (n : ℕ) (l : List α) : (lastN n l).length ≤ n := by
  simp [lastN]
  omega

lemma lastN_append {α : Type} (n : ℕ) (l m : List α) :
    lastN n (lastN n l ++ m) = lastN n (l ++ m) := by
  unfold lastN
  rcases Nat.le_total l.length n with h | h
  · rw [Nat.sub_eq_zero_of_le h, List.drop_zero]
  · rw [List.drop_append_eq_append_drop, List.drop_append_eq_append_drop,
      List.drop_drop]
    simp only [List.length_append, List.length_drop]
    congr 2 <;> omega

lemma setRoom_self (rooms : Registry) (code : String) (s : RoomState) :
    setRoom rooms code s code = some s := by
  simp [setRoom]

lemma dropWhile_eq_self_of {p : Char → Bool} {l : List Char}
    (h : ∀ c ∈ l, p c = false) : l.dropWhile p = l := by
  cases l with
  | nil => rfl
  | cons a as => simp [List.dropWhile_cons, h a (List.mem_cons_self a as)]

lemma map_eq_self_of {f : Char → Char} {l : List Char}
    (h : ∀ c ∈ l, f c = c) : l.map f = l := by
  induction l with
  | nil => rfl
  | cons a as ih =>
      simp only [List.map_cons, h a (List.mem_cons_self a as), List.cons.injEq,
        true_and]
      exact ih (fun c hc => h c (List.mem_cons_of_mem a hc))

lemma toUpper_of_upperOrDigit {c : Char} (h : isUpperOrDigit c = true) :
    Char.toUpper c = c := by
  have hn : (65 ≤ c.toNat ∧ c.toNat ≤ 90) ∨ (48 ≤ c.toNat ∧ c.toNat ≤ 57) := by
    simpa [isUpperOrDigit, Bool.or_eq_true, Bool.and_eq_true,
      decide_eq_true_eq] using h
  simp only [Char.toUpper]
  rw [if_neg]
  omega

lemma not_whitespace_of_upperOrDigit {c : Char} (h : isUpperOrDigit c = true) :
    c.isWhitespace = false := by
  by_contra hw
  simp only [Bool.not_eq_false] at hw
  simp only [Char.isWhitespace, Bool.or_eq_true, decide_eq_true_eq] at hw
  rcases hw with ((h1 | h1) | h1) | h1 <;> subst h1 <;> exact absurd h (by decide)

lemma normalizeRoomCode_of_valid {code : String}
    (h : isValidRoomCode code = true) : normalizeRoomCode (some code) = code := by
  have hall : ∀ c ∈ code.data, isUpperOrDigit c = true := by
    have := (Bool.and_eq_true _ _).mp h
    simpa [List.all_eq_true] using this.2
  have hws : ∀ c ∈ code.data, c.isWhitespace = false :=
    fun c hc => not_whitespace_of_upperOrDigit (hall c hc)
  have htrim : trimChars code.data = code.data := by
    unfold trimChars
    rw [dropWhile_eq_self_of hws,
      dropWhile_eq_self_of (fun c hc => hws c (List.mem_reverse.mp hc)),
      List.reverse_reverse]
  have hup : code.data.map Char.toUpper = code.data :=
    map_eq_self_of (fun c hc => toUpper_of_upperOrDigit (hall c hc))
  cases code with
  | mk data =>
      simp only [normalizeRoomCode, jsStringOrEmpty, Option.getD,
        jsTrim, jsToUpperCase] at *
      rw [htrim, hup]

/-! Sample data shared by concrete witnesses. -/

/-- A paused room as created on first reference. -/
def roomA : RoomState := defaultRoomState "AAAAAA" 0

/-- A playing room 10 seconds in, last updated at millisecond 1000. -/
def playingRoom : RoomState :=
  { roomCode := "AAAAAA", videoId := "dQw4w9WgXcQ", isPlaying := true,
    currentTime := 10, lastUpdatedAt := 1000, chat := [] }

/-- A registry holding two rooms, AAAAAA and BBBBBB. -/
def regAB : Registry :=
  setRoom (setRoom emptyRegistry "AAAAAA" roomA) "BBBBBB" (defaultRoomState "BBBBBB" 0)

/-! The claims. -/

/-- C1: the sync clock `getSyncedTime` returns `currentTime` unchanged when
`isPlaying` is false, and `currentTime` plus the elapsed wall-clock time
`now - lastUpdatedAt` converted to seconds when `isPlaying` is true. -/
theorem getSyncedTime_spec (state : RoomState) (now : ℚ) :
    (state.isPlaying = false → getSyncedTime state now = state.currentTime) ∧
    (state.isPlaying = true →
      getSyncedTime state now
        = state.currentTime + (now - state.lastUpdatedAt) / 1000) := by
  constructor <;> intro h <;> simp [getSyncedTime, h]

/-- Witness for C1: a paused room reads back its stored time, and a playing
room 10 seconds in reads 10 + (3500 - 1000)/1000 = 12.5 seconds. -/
theorem getSyncedTime_spec_witness :
    (roomA.isPlaying = false ∧ getSyncedTime roomA 3500 = roomA.currentTime) ∧
    (playingRoom.isPlaying = true ∧
      getSyncedTime playingRoom 3500
        = playingRoom.currentTime + ((3500 : ℚ) - playingRoom.lastUpdatedAt) / 1000) :=
  ⟨⟨by decide, (getSyncedTime_spec roomA 3500).1 (by decide)⟩,
   ⟨by decide, (getSyncedTime_spec playingRoom 3500).2 (by decide)⟩⟩

/-- C2: for a joined participant and numeric time `t`, `sync-pause(t)`
followed by any later read through the sync clock (including the HTTP
snapshot) yields exactly `t`: once paused, no elapsed-time term is added. -/
theorem syncPause_roundTrip (rooms : Registry) (code : String)
    (username : Option String) (t now readNow : ℚ) (hcode : code ≠ "") :
    ∃ s : RoomState,
      (handleSyncPause rooms { roomCode := some code, username := username }
          (some t) now).1 code = some s ∧
      s.isPlaying = false ∧ s.currentTime = t ∧
      getSyncedTime s readNow = t ∧
      (normalizeRoomCode (some code) = code → isValidRoomCode code = true →
        (getRoomSnapshot
            (handleSyncPause rooms { roomCode := some code, username := username }
              (some t) now).1 code readNow).1
          = SnapshotResult.ok code s.videoId false t) := by
  have hreg :
      (handleSyncPause rooms { roomCode := some code, username := username }
          (some t) now).1
        = setRoom (getOrCreateRoom rooms code now).2 code
            { (getOrCreateRoom rooms code now).1 with
              isPlaying := false, currentTime := t, lastUpdatedAt := now } := by
    simp [handleSyncPause, hcode, jsNumberOr0]
  refine ⟨{ (getOrCreateRoom rooms code now).1 with
      isPlaying := false, currentTime := t, lastUpdatedAt := now },
    ?_, rfl, rfl, ?_, ?_⟩
  · rw [hreg, setRoom_self]
  · simp [getSyncedTime]
  · intro hnorm hvalid
    simp [getRoomSnapshot, hnorm, hvalid, hasRoom, hreg, setRoom_self,
      getOrCreateRoom, getSyncedTime]

/-- Witness for C2: pausing room AAAAAA at t = 47/2 and reading 9000 ms
later still gives exactly 47/2. -/
theorem syncPause_roundTrip_witness :
    ("AAAAAA" : String) ≠ "" ∧
    ∃ s : RoomState,
      (handleSyncPause regAB { roomCode := some "AAAAAA", username := some "Ann" }
          (some (47 / 2)) 1000).1 "AAAAAA" = some s ∧
      s.isPlaying = false ∧ s.currentTime = 47 / 2 ∧
      getSyncedTime s 10000 = 47 / 2 ∧
      (normalizeRoomCode (some "AAAAAA") = "AAAAAA" →
        isValidRoomCode "AAAAAA" = true →
        (getRoomSnapshot
            (handleSyncPause regAB
              { roomCode := some "AAAAAA", username := some "Ann" }
              (some (47 / 2)) 1000).1 "AAAAAA" 10000).1
          = SnapshotResult.ok "AAAAAA" s.videoId false (47 / 2)) :=
  ⟨by decide, syncPause_roundTrip regAB "AAAAAA" (some "Ann") (47 / 2) 1000 10000 (by decide)⟩

lemma chatCap_if_eq (l : List ChatMessage) (a : ChatMessage) :
    (if 200 < l.length + 1 then lastN 200 (l ++ [a]) else l ++ [a])
      = lastN 200 (l ++ [a]) := by
  by_cases h : 200 < l.length + 1
  · simp [h]
  · have hle : (l ++ [a]).length ≤ 200 := by
      simp only [List.length_append, List.length_cons, List.length_nil]
      omega
    simp [h, lastN_of_le hle]

lemma handleChatMessage_registry (rooms : Registry) (code username : String)
    (inp : ChatInput) (s0 : RoomState) (hcode : code ≠ "") (huser : username ≠ "")
    (hblank : ¬ jsTrim inp.text = "") (hroom : rooms code = some s0) :
    (handleChatMessage rooms { roomCode := some code, username := some username }
        (some inp.text) inp.now inp.idNonce).1
      = setRoom rooms code
          { s0 with chat := lastN 200 (s0.chat ++ [builtChatMessage username inp]) } := by
  simp [handleChatMessage, hcode, huser, hblank, jsStringOrEmpty,
    getOrCreateRoom, hroom, builtChatMessage, chatCap_if_eq]

lemma runChatMessages_chat (inputs : List ChatInput) (rooms : Registry)
    (code username : String) (s0 : RoomState) (hcode : code ≠ "")
    (huser : username ≠ "") (hroom : rooms code = some s0)
    (hlen : s0.chat.length ≤ 200) :
    runChatMessages { roomCode := some code, username := some username }
        inputs rooms code
      = some { s0 with
          chat := lastN 200 (s0.chat ++ builtChatMessages username inputs) } := by
  induction inputs generalizing rooms s0 with
  | nil =>
      simpa [runChatMessages, builtChatMessages, lastN_of_le hlen] using hroom
  | cons inp rest ih =>
      have hrun : runChatMessages
            { roomCode := some code, username := some username } (inp :: rest) rooms
          = runChatMessages { roomCode := some code, username := some username } rest
              ((handleChatMessage rooms
                { roomCode := some code, username := some username }
                (some inp.text) inp.now inp.idNonce).1) := rfl
      by_cases hblank : jsTrim inp.text = ""
      · have hstep : (handleChatMessage rooms
              { roomCode := some code, username := some username }
              (some inp.text) inp.now inp.idNonce).1 = rooms := by
          simp [handleChatMessage, hcode, huser, hblank, jsStringOrEmpty]
        rw [hrun, hstep, ih rooms s0 hroom hlen]
        simp [builtChatMessages, hblank]
      · rw [hrun, handleChatMessage_registry rooms code username inp s0 hcode huser
          hblank hroom,
          ih (setRoom rooms code
              { s0 with
                chat := lastN 200 (s0.chat ++ [builtChatMessage username inp]) })
            { s0 with
              chat := lastN 200 (s0.chat ++ [builtChatMessage username inp]) }
            (setRoom_self _ _ _) (length_lastN _ _)]
        simp [builtChatMessages, hblank, lastN_append, List.append_assoc]

/-- C3: the chat log never exceeds 200 entries after any sequence of
`chat-message` events, and the retained entries are exactly the most recent
200 appended messages in insertion order (the witness instantiates the
250-message scenario, retaining messages 50 through 249). -/
theorem chatLog_capped (inputs : List ChatInput) (rooms : Registry)
    (code username : String) (s0 : RoomState) (hcode : code ≠ "")
    (huser : username ≠ "") (hroom : rooms code = some s0)
    (hlen : s0.chat.length ≤ 200) :
    runChatMessages { roomCode := some code, username := some username }
        inputs rooms code
      = some { s0 with
          chat := lastN 200 (s0.chat ++ builtChatMessages username inputs) } ∧
    (lastN 200 (s0.chat ++ builtChatMessages username inputs)).length ≤ 200 :=
  ⟨runChatMessages_chat inputs rooms code username s0 hcode huser hroom hlen,
   length_lastN _ _⟩

/-- The 250 sequential chat messages of the C3 scenario, with texts
m0, m1, ..., m249. -/
def inputs250 : List ChatInput :=
  (List.range 250).map
    (fun i => { text := "m" ++ Nat.repr i, now := 0, idNonce := Nat.repr i })

/-- The room and registry the C3 scenario starts from. -/
def roomC : RoomState := defaultRoomState "CCC234" 0

def regC : Registry := setRoom emptyRegistry "CCC234" roomC

/-- Witness for C3: after the 250-message scenario the log is exactly the
last 200 built messages, which are messages 50 through 249 (0-indexed) in
order, and the final length is 200. -/
theorem chatLog_capped_witness :
    (("CCC234" : String) ≠ "" ∧ ("Ann" : String) ≠ "" ∧
      regC "CCC234" = some roomC ∧ roomC.chat.length ≤ 200) ∧
    (runChatMessages { roomCode := some "CCC234", username := some "Ann" }
        inputs250 regC "CCC234"
      = some { roomC with
          chat := lastN 200 (roomC.chat ++ builtChatMessages "Ann" inputs250) } ∧
      (lastN 200 (roomC.chat ++ builtChatMessages "Ann" inputs250)).length ≤ 200) ∧
    lastN 200 (roomC.chat ++ builtChatMessages "Ann" inputs250)
      = (builtChatMessages "Ann" inputs250).drop 50 ∧
    ((builtChatMessages "Ann" inputs250).drop 50).length = 200 ∧
    (builtChatMessages "Ann" inputs250).length = 250 :=
  ⟨⟨by decide, by decide, by decide, by decide⟩,
   chatLog_capped inputs250 regC "CCC234" "Ann" roomC (by decide) (by decide)
     (by decide) (by decide),
   by decide, by decide, by decide⟩

/-- C4 counterexample: the claim says any code with a character outside the
32-symbol alphabet `ABCDEFGHJKLMNPQRSTUVWXYZ23456789` is rejected, but
`isValidRoomCode` implements the regex `/^[A-Z0-9]{6}$/`, so the code
OO1100 — made entirely of the excluded characters O, 0 and 1 — passes
validation, a join to an existing room named OO1100 succeeds, and the HTTP
lookup of OO1100 reaches the existence check (NotFound) instead of being
rejected as invalid. -/
theorem roomCodeFormat_counterexample :
    isValidRoomCode "OO1100" = true ∧
    'O' ∉ ROOM_CHARSET.data ∧ '0' ∉ ROOM_CHARSET.data ∧ '1' ∉ ROOM_CHARSET.data ∧
    (handleJoinRoom (setRoom emptyRegistry "OO1100" (defaultRoomState "OO1100" 0))
        freshSocketData (some "OO1100") (some "Ann") 0).1.roomCode
      = some "OO1100" ∧
    (getRoomSnapshot emptyRegistry "OO1100" 0).1 = SnapshotResult.notFound := by
  refine ⟨by decide, by decide, by decide, by decide, by decide, by decide⟩

/-- C4 amended: `join-room` and the room-snapshot lookup accept exactly the
codes of 6 characters drawn from the regex class `[A-Z0-9]` (uppercase
letters and digits, 36 symbols) — a strict superset of the 32-symbol
alphabet, so every 6-character code over `ROOM_CHARSET` is accepted, but
codes containing 0, O, 1 or I are not rejected by format validation. -/
theorem isValidRoomCode_spec (code : String) :
    (isValidRoomCode code = true ↔
      code.data.length = 6 ∧ ∀ c ∈ code.data,
        (65 ≤ c.toNat ∧ c.toNat ≤ 90) ∨ (48 ≤ c.toNat ∧ c.toNat ≤ 57)) ∧
    (code.data.length = 6 → (∀ c ∈ code.data, c ∈ ROOM_CHARSET.data) →
      isValidRoomCode code = true) ∧
    (∀ rooms : Registry, ∀ now : ℚ,
      (getRoomSnapshot rooms code now).1 = SnapshotResult.invalidFormat ↔
        isValidRoomCode (normalizeRoomCode (some code)) = false) := by
  have hiff : isValidRoomCode code = true ↔
      code.data.length = 6 ∧ ∀ c ∈ code.data,
        (65 ≤ c.toNat ∧ c.toNat ≤ 90) ∨ (48 ≤ c.toNat ∧ c.toNat ≤ 57) := by
    simp [isValidRoomCode, ROOM_CODE_LENGTH, List.all_eq_true, isUpperOrDigit,
      Bool.or_eq_true, Bool.and_eq_true, decide_eq_true_eq]
  refine ⟨hiff, ?_, ?_⟩
  · intro hlen hmem
    refine hiff.mpr ⟨hlen, fun c hc => ?_⟩
    have hcs : ∀ c ∈ ROOM_CHARSET.data,
        (65 ≤ c.toNat ∧ c.toNat ≤ 90) ∨ (48 ≤ c.toNat ∧ c.toNat ≤ 57) := by decide
    exact hcs c (hmem c hc)
  · intro rooms now
    by_cases hv : isValidRoomCode (normalizeRoomCode (some code)) = true
    · constructor
      · intro habs
        exfalso
        by_cases hr : hasRoom rooms (normalizeRoomCode (some code)) = true <;>
          simp [getRoomSnapshot, hv, hr] at habs
      · intro hfalse
        rw [hv] at hfalse
        exact absurd hfalse (by decide)
    · have hv' : isValidRoomCode (normalizeRoomCode (some code)) = false :=
        Bool.eq_false_iff.mpr hv
      simp [getRoomSnapshot, hv']

/-- Witness for C4 amended: AB2345 is a 6-character code over the 32-symbol
alphabet and is accepted by the validator. -/
theorem isValidRoomCode_spec_witness :
    (("AB2345" : String).data.length = 6 ∧
      (∀ c ∈ ("AB2345" : String).data, c ∈ ROOM_CHARSET.data)) ∧
    isValidRoomCode "AB2345" = true :=
  ⟨⟨by decide, by decide⟩,
   (isValidRoomCode_spec "AB2345").2.1 (by decide) (by decide)⟩

/-- C5 counterexample: the claim says membership is one-way per connection,
but the `join-room` handler never checks whether the socket is already
joined. A participant joined to room AAAAAA who sends `join-room` for the
existing room BBBBBB ends up with membership BBBBBB. -/
theorem joinRoom_rejoin_counterexample :
    hasRoom regAB "AAAAAA" = true ∧ hasRoom regAB "BBBBBB" = true ∧
    ({ roomCode := some "AAAAAA", username := some "Ann" } : SocketData).roomCode
      = some "AAAAAA" ∧
    (handleJoinRoom regAB { roomCode := some "AAAAAA", username := some "Ann" }
        (some "BBBBBB") (some "Ann") 0).1.roomCode = some "BBBBBB" ∧
    some ("BBBBBB" : String) ≠ some ("AAAAAA" : String) := by
  refine ⟨by decide, by decide, by decide, by decide, by decide⟩

/-- C5 amended: `join-room` performs no already-joined check; whenever the
trimmed username is non-empty, the normalized code is format-valid and the
room exists, the handler overwrites the socket's membership with the new
room — regardless of any prior membership. Only invalid or nonexistent
codes leave the membership unchanged. -/
theorem joinRoom_overwrites_membership (rooms : Registry) (sock : SocketData)
    (roomCode username : Option String) (now : ℚ)
    (hname : jsTrim (jsStringOrEmpty username) ≠ "")
    (hvalid : isValidRoomCode (normalizeRoomCode roomCode) = true)
    (hexists : hasRoom rooms (normalizeRoomCode roomCode) = true) :
    (handleJoinRoom rooms sock roomCode username now).1
      = { roomCode := some (normalizeRoomCode roomCode),
          username := some (jsTrim (jsStringOrEmpty username)) } := by
  simp [handleJoinRoom, hname, hvalid, hexists]

/-- Witness for C5 amended: the concrete rejoin of the counterexample,
driven through the amended theorem. -/
theorem joinRoom_overwrites_membership_witness :
    (jsTrim (jsStringOrEmpty (some "Ann")) ≠ "" ∧
      isValidRoomCode (normalizeRoomCode (some "BBBBBB")) = true ∧
      hasRoom regAB (normalizeRoomCode (some "BBBBBB")) = true) ∧
    (handleJoinRoom regAB { roomCode := some "AAAAAA", username := some "Ann" }
        (some "BBBBBB") (some "Ann") 0).1
      = { roomCode := some (normalizeRoomCode (some "BBBBBB")),
          username := some (jsTrim (jsStringOrEmpty (some "Ann"))) } :=
  ⟨⟨by decide, by decide, by decide⟩,
   joinRoom_overwrites_membership regAB
     { roomCode := some "AAAAAA", username := some "Ann" }
     (some "BBBBBB") (some "Ann") 0 (by decide) (by decide) (by decide)⟩

lemma generateRoomCode_length (rand : ℕ → ℕ) : (generateRoomCode rand).length = 6 :=
  rfl

lemma charsetChar_mem : ∀ idx < 32, charsetChar idx ∈ ROOM_CHARSET.data := by decide

lemma generateRoomCode_chars (rand : ℕ → ℕ) (hrand : ∀ i, rand i < 32) :
    ∀ c ∈ (generateRoomCode rand).data, c ∈ ROOM_CHARSET.data := by
  intro c hc
  simp only [generateRoomCode, List.mem_map, List.mem_range] at hc
  obtain ⟨i, _, rfl⟩ := hc
  exact charsetChar_mem (rand i) (hrand i)

lemma getUniqueRoomCodeLoop_ok (rooms : Registry) (rand : ℕ → ℕ → ℕ) :
    ∀ fuel attempts code,
      getUniqueRoomCodeLoop rooms rand attempts fuel = Except.ok code →
      (∃ a, code = generateRoomCode (rand a)) ∧ hasRoom rooms code = false := by
  intro fuel
  induction fuel with
  | zero =>
      intro attempts code h
      exact absurd h (by simp [getUniqueRoomCodeLoop])
  | succ fuel ih =>
      intro attempts code h
      rw [getUniqueRoomCodeLoop] at h
      by_cases hr : hasRoom rooms (generateRoomCode (rand attempts)) = true
      · rw [if_pos hr] at h
        exact ih _ _ h
      · rw [if_neg hr] at h
        have hco : generateRoomCode (rand attempts) = code := by
          injection h
        subst hco
        exact ⟨⟨attempts, rfl⟩, Bool.eq_false_iff.mpr hr⟩

lemma getUniqueRoomCodeLoop_error (rooms : Registry) (rand : ℕ → ℕ → ℕ)
    (hcol : ∀ a, hasRoom rooms (generateRoomCode (rand a)) = true) :
    ∀ fuel attempts,
      getUniqueRoomCodeLoop rooms rand attempts fuel
        = Except.error "Could not generate unique room code" := by
  intro fuel
  induction fuel with
  | zero => intro attempts; rfl
  | succ fuel ih =>
      intro attempts
      rw [getUniqueRoomCodeLoop, if_pos (hcol attempts)]
      exact ih _

/-- C6: every code the unique-code generator returns is 6 characters over
the fixed 32-symbol alphabet and is absent from the registry at generation
time; if every one of the bounded 1000 attempts collides, the generator
returns the exhaustion error instead of looping forever or returning a
duplicate. (`rand a i` models the i-th draw `Math.floor(Math.random()*32)`
of attempt `a`, hence is below 32.) -/
theorem getUniqueRoomCode_spec (rooms : Registry) (rand : ℕ → ℕ → ℕ)
    (hrand : ∀ a i, rand a i < 32) :
    (∀ code, getUniqueRoomCode rooms rand = Except.ok code →
      code.length = 6 ∧ (∀ c ∈ code.data, c ∈ ROOM_CHARSET.data) ∧
      hasRoom rooms code = false) ∧
    ((∀ a, hasRoom rooms (generateRoomCode (rand a)) = true) →
      getUniqueRoomCode rooms rand
        = Except.error "Could not generate unique room code") := by
  constructor
  · intro code h
    obtain ⟨⟨a, rfl⟩, hfree⟩ := getUniqueRoomCodeLoop_ok rooms rand 1000 0 code h
    exact ⟨generateRoomCode_length _, generateRoomCode_chars _ (hrand a), hfree⟩
  · intro hcol
    exact getUniqueRoomCodeLoop_error rooms rand hcol 1000 0

/-- A random stream whose draws are all 0 (always picks the first charset
character, A). -/
def zeroDraws : ℕ → ℕ → ℕ := fun _ _ => 0

/-- A registry in which every string already names a room. -/
def fullRegistry : Registry := fun _ => some roomA

/-- Witness for C6: with all draws 0 on an empty registry the first attempt
yields AAAAAA, which is 6 charset characters and fresh; on a registry where
every string already names a room, all 1000 attempts collide and the
exhaustion error is returned. -/
theorem getUniqueRoomCode_spec_witness :
    (∀ a i, zeroDraws a i < 32) ∧
    getUniqueRoomCode emptyRegistry zeroDraws = Except.ok "AAAAAA" ∧
    (("AAAAAA" : String).length = 6 ∧
      (∀ c ∈ ("AAAAAA" : String).data, c ∈ ROOM_CHARSET.data) ∧
      hasRoom emptyRegistry "AAAAAA" = false) ∧
    (∀ a, hasRoom fullRegistry (generateRoomCode (zeroDraws a)) = true) ∧
    getUniqueRoomCode fullRegistry zeroDraws
      = Except.error "Could not generate unique room code" :=
  ⟨fun _ _ => by simp [zeroDraws], rfl,
   (getUniqueRoomCode_spec emptyRegistry zeroDraws (fun _ _ => by simp [zeroDraws])).1
     "AAAAAA" rfl,
   fun _ => rfl,
   (getUniqueRoomCode_spec fullRegistry zeroDraws
     (fun _ _ => by simp [zeroDraws])).2 (fun _ => rfl)⟩

/-- C7: a `join-room` event naming a room code absent from the registry
leaves the registry unchanged (no room is created), leaves the socket
unjoined as it was, and produces exactly one error event delivered to the
requesting socket only — a NotFound-class message when the inputs were
otherwise valid, an InvalidInput-class message otherwise. -/
theorem joinRoom_nonexistent (rooms : Registry) (sock : SocketData)
    (roomCode username : Option String) (now : ℚ)
    (habsent : rooms (normalizeRoomCode roomCode) = none) :
    handleJoinRoom rooms sock roomCode username now
      = (sock, rooms,
         [{ scope := Scope.senderOnly, event := "join-error",
            payload := Payload.joinError
              (if jsTrim (jsStringOrEmpty username) = ""
                  ∨ isValidRoomCode (normalizeRoomCode roomCode) = false
               then "Invalid room code or username"
               else "Room does not exist") }]) := by
  have hnoroom : hasRoom rooms (normalizeRoomCode roomCode) = false := by
    simp [hasRoom, habsent]
  by_cases h1 : jsTrim (jsStringOrEmpty username) = ""
  · simp [handleJoinRoom, h1]
  · by_cases h2 : isValidRoomCode (normalizeRoomCode roomCode) = true
    · simp [handleJoinRoom, h1, h2, hnoroom]
    · have h2' : isValidRoomCode (normalizeRoomCode roomCode) = false :=
        Bool.eq_false_iff.mpr h2
      simp [handleJoinRoom, h1, h2']

/-- Witness for C7: joining absent room ZZZZZZ on the two-room registry
yields only the NotFound-class error to the sender and changes nothing. -/
theorem joinRoom_nonexistent_witness :
    regAB (normalizeRoomCode (some "ZZZZZZ")) = none ∧
    handleJoinRoom regAB freshSocketData (some "ZZZZZZ") (some "Ann") 0
      = (freshSocketData, regAB,
         [{ scope := Scope.senderOnly, event := "join-error",
            payload := Payload.joinError
              (if jsTrim (jsStringOrEmpty (some "Ann")) = ""
                  ∨ isValidRoomCode (normalizeRoomCode (some "ZZZZZZ")) = false
               then "Invalid room code or username"
               else "Room does not exist") }]) :=
  ⟨by decide,
   joinRoom_nonexistent regAB freshSocketData (some "ZZZZZZ") (some "Ann") 0
     (by decide)⟩

/-- C8: every mutating event whose handler guard fails — any of set-video,
sync-play, sync-pause, sync-seek or chat-message from an unjoined socket, or
with missing/blank required data — is a silent no-op: the registry is
returned exactly as it was and nothing is emitted. -/
theorem invalidEvents_noop (rooms : Registry) (sock : SocketData)
    (e : ClientEvent) (now : ℚ) (idNonce : String)
    (h : eventPrecondition sock e = false) :
    dispatchMutating rooms sock e now idNonce = (rooms, []) := by
  cases e with
  | setVideo v =>
      rcases hsock : sock.roomCode with _ | code
      · simp [dispatchMutating, handleSetVideo, hsock]
      · rcases v with _ | vid
        · simp [dispatchMutating, handleSetVideo, hsock]
        · simp only [eventPrecondition, truthyString, hsock,
            Bool.and_eq_false_iff, decide_eq_false_iff_not, not_not] at h
          rcases h with h | h <;>
            simp [dispatchMutating, handleSetVideo, hsock, h]
  | syncPlay t =>
      rcases hsock : sock.roomCode with _ | code
      · simp [dispatchMutating, handleSyncPlay, hsock]
      · simp only [eventPrecondition, truthyString, hsock,
          decide_eq_false_iff_not, not_not] at h
        simp [dispatchMutating, handleSyncPlay, hsock, h]
  | syncPause t =>
      rcases hsock : sock.roomCode with _ | code
      · simp [dispatchMutating, handleSyncPause, hsock]
      · simp only [eventPrecondition, truthyString, hsock,
          decide_eq_false_iff_not, not_not] at h
        simp [dispatchMutating, handleSyncPause, hsock, h]
  | syncSeek t =>
      rcases hsock : sock.roomCode with _ | code
      · simp [dispatchMutating, handleSyncSeek, hsock]
      · simp only [eventPrecondition, truthyString, hsock,
          decide_eq_false_iff_not, not_not] at h
        simp [dispatchMutating, handleSyncSeek, hsock, h]
  | chatMessage t =>
      rcases hsock : sock.roomCode with _ | code
      · simp [dispatchMutating, handleChatMessage, hsock]
      · rcases huser : sock.username with _ | username
        · simp [dispatchMutating, handleChatMessage, hsock, huser]
        · simp only [eventPrecondition, truthyString, hsock, huser,
            Bool.and_eq_false_iff, decide_eq_false_iff_not, not_not] at h
          rcases h with (h | h) | h <;>
            simp [dispatchMutating, handleChatMessage, hsock, huser, h]

/-- Witness for C8: an unjoined sync-play, a joined chat-message whose text
is blank after trim, and a joined set-video with an empty video id all
leave the registry untouched and emit nothing. -/
theorem invalidEvents_noop_witness :
    (eventPrecondition freshSocketData (ClientEvent.syncPlay (some 5)) = false ∧
      dispatchMutating emptyRegistry freshSocketData
        (ClientEvent.syncPlay (some 5)) 0 "n1" = (emptyRegistry, [])) ∧
    (eventPrecondition { roomCode := some "AAAAAA", username := some "Ann" }
        (ClientEvent.chatMessage (some "   ")) = false ∧
      dispatchMutating regAB { roomCode := some "AAAAAA", username := some "Ann" }
        (ClientEvent.chatMessage (some "   ")) 0 "n2" = (regAB, [])) ∧
    (eventPrecondition { roomCode := some "AAAAAA", username := some "Ann" }
        (ClientEvent.setVideo (some "")) = false ∧
      dispatchMutating regAB { roomCode := some "AAAAAA", username := some "Ann" }
        (ClientEvent.setVideo (some "")) 0 "n3" = (regAB, [])) :=
  ⟨⟨by decide,
    invalidEvents_noop emptyRegistry freshSocketData
      (ClientEvent.syncPlay (some 5)) 0 "n1" (by decide)⟩,
   ⟨by decide,
    invalidEvents_noop regAB { roomCode := some "AAAAAA", username := some "Ann" }
      (ClientEvent.chatMessage (some "   ")) 0 "n2" (by decide)⟩,
   ⟨by decide,
    invalidEvents_noop regAB { roomCode := some "AAAAAA", username := some "Ann" }
      (ClientEvent.setVideo (some "")) 0 "n3" (by decide)⟩⟩

/-- C9: for a joined participant, `sync-seek(t)` sets the room's
`currentTime` to the coerced input and `lastUpdatedAt` to now while leaving
`isPlaying`, `videoId` and the chat log unchanged (the result is the old
room with exactly those two fields replaced), and emits one sync payload to
the room excluding the sender. -/
theorem syncSeek_spec (rooms : Registry) (code : String)
    (username : Option String) (s0 : RoomState) (t : Option ℚ) (now : ℚ)
    (hcode : code ≠ "") (hroom : rooms code = some s0) :
    handleSyncSeek rooms { roomCode := some code, username := username } t now
      = (setRoom rooms code
          { s0 with currentTime := jsNumberOr0 t, lastUpdatedAt := now },
         [{ scope := Scope.roomExceptSender code, event := "sync-seek",
            payload := Payload.sync
              { isPlaying := s0.isPlaying, currentTime := jsNumberOr0 t,
                serverNow := now } }]) := by
  simp only [handleSyncSeek, hcode, if_neg, getOrCreateRoom, hroom,
    buildSyncPayload, getSyncedTime]
  cases hp : s0.isPlaying <;> simp [hp, hcode]

/-- Witness for C9: seeking room AAAAAA to 33 at time 2000 rewrites exactly
`currentTime` and `lastUpdatedAt` and emits the payload to everyone but the
sender. -/
theorem syncSeek_spec_witness :
    (("AAAAAA" : String) ≠ "" ∧ regAB "AAAAAA" = some roomA) ∧
    handleSyncSeek regAB { roomCode := some "AAAAAA", username := some "Ann" }
        (some 33) 2000
      = (setRoom regAB "AAAAAA"
          { roomA with currentTime := jsNumberOr0 (some 33), lastUpdatedAt := 2000 },
         [{ scope := Scope.roomExceptSender "AAAAAA", event := "sync-seek",
            payload := Payload.sync
              { isPlaying := roomA.isPlaying, currentTime := jsNumberOr0 (some 33),
                serverNow := 2000 } }]) :=
  ⟨⟨by decide, by decide⟩,
   syncSeek_spec regAB "AAAAAA" (some "Ann") roomA (some 33) 2000
     (by decide) (by decide)⟩

/-- C10: both `join-room` and the HTTP room-snapshot lookup act on the
normalized room code (trimmed, then uppercased), so any raw input whose
normalization equals an existing room's code — in particular a lowercase or
whitespace-padded variant — behaves exactly like the canonical code and
refers to the same room. -/
theorem roomCode_normalized_lookup (rooms : Registry) (sock : SocketData)
    (raw : String) (username : Option String) (now : ℚ) (code : String)
    (s0 : RoomState) (hnorm : normalizeRoomCode (some raw) = code)
    (hvalid : isValidRoomCode code = true)
    (hname : jsTrim (jsStringOrEmpty username) ≠ "")
    (hroom : rooms code = some s0) :
    handleJoinRoom rooms sock (some raw) username now
      = handleJoinRoom rooms sock (some code) username now ∧
    getRoomSnapshot rooms raw now = getRoomSnapshot rooms code now ∧
    (handleJoinRoom rooms sock (some raw) username now).1.roomCode = some code ∧
    (getRoomSnapshot rooms raw now).1
      = SnapshotResult.ok code s0.videoId s0.isPlaying (getSyncedTime s0 now) := by
  have hcanon : normalizeRoomCode (some code) = code :=
    normalizeRoomCode_of_valid hvalid
  have h1 : handleJoinRoom rooms sock (some raw) username now
      = handleJoinRoom rooms sock (some code) username now := by
    simp only [handleJoinRoom, hnorm, hcanon]
  have h2 : getRoomSnapshot rooms raw now = getRoomSnapshot rooms code now := by
    simp only [getRoomSnapshot, hnorm, hcanon]
  have hhas : hasRoom rooms code = true := by simp [hasRoom, hroom]
  refine ⟨h1, h2, ?_, ?_⟩
  · rw [h1]
    simp [handleJoinRoom, hcanon, hname, hvalid, hhas]
  · rw [h2]
    simp [getRoomSnapshot, hcanon, hvalid, hhas, getOrCreateRoom, hroom]

/-- The room the C10 witness joins through a padded lowercase variant. -/
def roomABC : RoomState := defaultRoomState "ABC234" 0

def regABC : Registry := setRoom emptyRegistry "ABC234" roomABC

/-- Witness for C10: the whitespace-padded lowercase variant of ABC234
normalizes to it, joins the same room, and reads the same snapshot. -/
theorem roomCode_normalized_lookup_witness :
    (normalizeRoomCode (some "  abc234 ") = "ABC234" ∧
      isValidRoomCode "ABC234" = true ∧
      jsTrim (jsStringOrEmpty (some "Ann")) ≠ "" ∧
      regABC "ABC234" = some roomABC) ∧
    (handleJoinRoom regABC freshSocketData (some "  abc234 ") (some "Ann") 0
        = handleJoinRoom regABC freshSocketData (some "ABC234") (some "Ann") 0 ∧
      getRoomSnapshot regABC "  abc234 " 0 = getRoomSnapshot regABC "ABC234" 0 ∧
      (handleJoinRoom regABC freshSocketData (some "  abc234 ") (some "Ann") 0).1.roomCode
        = some "ABC234" ∧
      (getRoomSnapshot regABC "  abc234 " 0).1
        = SnapshotResult.ok "ABC234" roomABC.videoId roomABC.isPlaying
            (getSyncedTime roomABC 0)) :=
  ⟨⟨by decide, by decide, by decide, by decide⟩,
   roomCode_normalized_lookup regABC freshSocketData "  abc234 " (some "Ann") 0
     "ABC234" roomABC (by decide) (by decide) (by decide) (by decide)⟩

end WatchParty
